import Mathlib

/-!
Verification of the txkube resource model (`src/txkube/_model.py`) and the
path resolver described by the specification.

The Python code is shallowly embedded: pyrsistent PClass values become Lean
structures, `transform` updates become functional record updates, raised
exceptions (`KeyError`, `ValueError`, attribute lookup failures) become an
explicit `Except` error channel named after the specification's error
taxonomy (`NotFoundError`, `UnknownKindError`).
-/

namespace Txkube

/-- Error taxonomy of the specification.  `notFoundError` stands for the
collection lookup/removal failures (`KeyError` from `item_by_name`,
`ValueError` from `pvector.remove`); `unknownKindError` stands for the
decode-time failures of `iobject_from_raw` (`KeyError` from `_versions[...]`,
attribute lookup failure for an unregistered kind); `invalidRawError` stands
for a record whose fields cannot construct the target type. -/
inductive KError where
  | notFoundError
  | unknownKindError
  | invalidRawError
deriving DecidableEq, Repr

/-- Embedding of the `v1.ObjectMeta` fields used by `_model.py`: `name`,
`namespace`, `uid`, `resourceVersion`.  Optional fields are `Option`;
`namespace` is a reserved word in Lean so the field is called `nspace`. -/
structure ObjectMeta where
  name : Option String
  nspace : Option String
  uid : Option String
  resourceVersion : Option String
deriving DecidableEq, Repr

/-- Embedding of `NamespaceStatus` (`_model.py` lines 36-49). -/
structure NamespaceStatus where
  phase : String
deriving DecidableEq, Repr

/-- `NamespaceStatus.active()` returns `cls(phase=u"Active")`. -/
def NamespaceStatus.active : NamespaceStatus := ⟨"Active"⟩

/-- `NamespaceStatus.terminating()` returns `cls(phase=u"Terminating")`. -/
def NamespaceStatus.terminating : NamespaceStatus := ⟨"Terminating"⟩

/-- Embedding of the `Namespace` resource value (`_model.py` lines 53-86):
metadata plus an optional status. -/
structure Namespace where
  metadata : ObjectMeta
  status : Option NamespaceStatus
deriving DecidableEq, Repr

/-- `Namespace.named(name)`: only the name metadata item is set, status is
`None`. -/
def Namespace.named (name : String) : Namespace :=
  { metadata := { name := some name, nspace := none, uid := none, resourceVersion := none },
    status := none }

/-- `Namespace.default()` is `Namespace.named(u"default")`. -/
def Namespace.defaultNamespace : Namespace := Namespace.named "default"

/-- `Namespace.fill_defaults` (`_model.py` lines 79-86):
`self.transform(["metadata","uid"], unicode(uuid4()), ["status"],
NamespaceStatus.active())`.  The fresh draw of `uuid4()` (Python standard
library randomness, outside this repository) is passed in as the
`freshUid` argument. -/
def Namespace.fill_defaults (self : Namespace) (freshUid : String) : Namespace :=
  { self with
    metadata := { self.metadata with uid := some freshUid },
    status := some NamespaceStatus.active }

/-- Embedding of the `ConfigMap` resource value (`_model.py` lines 90-110):
metadata plus an optional `data` mapping of strings to strings. -/
structure ConfigMap where
  metadata : ObjectMeta
  data : Option (List (String × String))
deriving DecidableEq, Repr

/-- `ConfigMap.named(namespace, name)`. -/
def ConfigMap.named (nspace name : String) : ConfigMap :=
  { metadata := { name := some name, nspace := some nspace, uid := none, resourceVersion := none },
    data := none }

/-- `ConfigMap.fill_defaults` returns `self` unchanged. -/
def ConfigMap.fill_defaults (self : ConfigMap) : ConfigMap := self

/-- Shape of the string `unicode(uuid4())` produces: 36 characters,
hyphens at offsets 8, 13, 18 and 23, and the version nibble `'4'` at
offset 14. -/
def IsUuid4String (s : String) : Prop :=
  s.length = 36 ∧ s.data[14]? = some '4' ∧ s.data[8]? = some '-' ∧
    s.data[13]? = some '-' ∧ s.data[18]? = some '-' ∧ s.data[23]? = some '-'

instance (s : String) : Decidable (IsUuid4String s) := by
  unfold IsUuid4String; infer_instance

/-- Lower-casing of a kind name, character by character, mirroring Python
`str.lower()` on the ASCII kind names the model uses. -/
def lowerStr (s : String) : String := String.mk (s.data.map Char.toLower)

/-- Modelled from the spec: the group a non-`v1` apiVersion belongs to.  The
spec (§4.5) only says "group derived from apiVersion" and the spec/tests fix
a single data point, `v1beta1 ↦ extensions`; the code that implements the
derivation (`txkube/_network.py`) is not among the provided sources. -/
def groupForVersion (_ : String) : String := "extensions"

/-- Modelled from the spec: `collection_location` from `txkube/_network.py`,
which is not among the provided sources (only its tests are).  Spec §4.5:
`v1` maps to base `["api", "v1"]`, other versions to
`["apis", group, version]`; a non-empty namespace inserts
`["namespaces", namespace]` after the base; the final segment is the
lower-cased kind with `"s"` appended. -/
def collection_location (apiVersion kind : String) (nspace : Option String) : List String :=
  let base : List String :=
    if apiVersion = "v1" then ["api", "v1"]
    else ["apis", groupForVersion apiVersion, apiVersion]
  let nsSegments : List String :=
    match nspace with
    | some ns => if ns = "" then [] else ["namespaces", ns]
    | none => []
  base ++ nsSegments ++ [lowerStr kind ++ "s"]

/-- Lexicographic comparison of character lists: how Python compares two
unicode strings. -/
def charListLt : List Char → List Char → Bool
  | [], [] => false
  | [], _ :: _ => true
  | _ :: _, [] => false
  | a :: as, b :: bs =>
    if a < b then true else if b < a then false else charListLt as bs

/-- Strict string comparison by code points, as Python orders the components
of a sort key tuple. -/
def strLt (x y : String) : Bool := charListLt x.data y.data

/-- Non-strict string comparison. -/
def strLe (x y : String) : Bool := strLt x y || x == y

/-- Comparison of optional namespace strings as Python 2 compares the first
component of `object_sort_key`: `None` is less than every string, strings
compare lexicographically.  This is the strict version. -/
def optStrLt (a b : Option String) : Bool :=
  match a, b with
  | none, none => false
  | none, some _ => true
  | some _, none => false
  | some x, some y => strLt x y

/-- Non-strict comparison of optional strings, `none` least. -/
def optStrLe (a b : Option String) : Bool :=
  match a, b with
  | none, _ => true
  | some _, none => false
  | some x, some y => strLe x y

/-- Embedding of `object_sort_key` (`_model.py` lines 114-124): the pair
`(getattr(obj.metadata, "namespace", None), obj.metadata.name)`. -/
def object_sort_key (obj : Namespace) : Option String × Option String :=
  (obj.metadata.nspace, obj.metadata.name)

/-- Lexicographic comparison of two sort keys, as Python 2 orders the tuples
produced by `object_sort_key` (with `None` below every string). -/
def pairLe (p q : Option String × Option String) : Bool :=
  optStrLt p.1 q.1 || (p.1 == q.1 && optStrLe p.2 q.2)

/-- The ordering `sorted(..., key=object_sort_key)` sorts by. -/
def keyLe (a b : Namespace) : Bool :=
  pairLe (object_sort_key a) (object_sort_key b)

/-- Propositional form of `keyLe`. -/
def keyLeP (a b : Namespace) : Prop := keyLe a b = true

instance (a b : Namespace) : Decidable (keyLeP a b) := by
  unfold keyLeP; infer_instance

/-- Embedding of the `add` evolver (`_model.py` lines 128-131):
`sorted(pvector.append(value), key=object_sort_key)`.  Python's `sorted` is
a stable merge sort, embedded as `List.mergeSort`. -/
def addEvolver (value : Namespace) (items : List Namespace) : List Namespace :=
  (items ++ [value]).mergeSort keyLe

/-- Embedding of the `remove` evolver (`_model.py` lines 134-137):
`pvector.remove(value)` removes the first occurrence of `value` and raises
`ValueError` — the spec's `NotFoundError` — when `value` is absent. -/
def removeFirst (items : List Namespace) (value : Namespace) : Option (List Namespace) :=
  match items with
  | [] => none
  | x :: rest =>
    if x = value then some rest
    else (removeFirst rest value).map (fun l => x :: l)

/-- Embedding of a `_List` collection (`_model.py` lines 141-165) whose
items are `Namespace` values, i.e. of the registered `NamespaceList` kind. -/
structure NamespaceList where
  items : List Namespace
deriving DecidableEq, Repr

/-- `_List.add` (`_model.py` lines 157-158): append the object and re-sort. -/
def NamespaceList.add (C : NamespaceList) (obj : Namespace) : NamespaceList :=
  ⟨addEvolver obj C.items⟩

/-- `_List.replace` (`_model.py` lines 161-165): remove `old` (failing when
it is not a member), then add `new` re-sorted. -/
def NamespaceList.replace (C : NamespaceList) (old new : Namespace) :
    Except KError NamespaceList :=
  match removeFirst C.items old with
  | none => .error .notFoundError
  | some rest => .ok ⟨addEvolver new rest⟩

/-- `_List.item_by_name` (`_model.py` lines 142-154): the first item whose
`metadata.name` equals `name`, `KeyError` — the spec's `NotFoundError` —
when there is none. -/
def NamespaceList.item_by_name (C : NamespaceList) (name : String) :
    Except KError Namespace :=
  match C.items.find? (fun obj => obj.metadata.name == some name) with
  | some obj => .ok obj
  | none => .error .notFoundError

theorem charListLt_irrefl (x : List Char) : charListLt x x = false := by
  induction x with
  | nil => rfl
  | cons a as ih => simp [charListLt, lt_irrefl, ih]

theorem charListLt_trans {x y z : List Char} :
    charListLt x y = true → charListLt y z = true → charListLt x z = true := by
  induction x generalizing y z with
  | nil =>
    intro h1 h2
    cases y with
    | nil => simp [charListLt] at h1
    | cons b bs =>
      cases z with
      | nil => simp [charListLt] at h2
      | cons c cs => simp [charListLt]
  | cons a as ih =>
    intro h1 h2
    cases y with
    | nil => simp [charListLt] at h1
    | cons b bs =>
      cases z with
      | nil => simp [charListLt] at h2
      | cons c cs =>
        simp only [charListLt] at h1 h2 ⊢
        by_cases hab : a < b
        · by_cases hbc : b < c
          · simp [lt_trans hab hbc]
          · by_cases hcb : c < b
            · simp [hbc, hcb] at h2
            · have hbceq : b = c := le_antisymm (not_lt.mp hcb) (not_lt.mp hbc)
              subst hbceq
              simp [hab]
        · by_cases hba : b < a
          · simp [hab, hba] at h1
          · have habeq : a = b := le_antisymm (not_lt.mp hba) (not_lt.mp hab)
            subst habeq
            simp only [lt_irrefl, if_false] at h1
            by_cases hac : a < c
            · simp [hac]
            · by_cases hca : c < a
              · simp [hac, hca] at h2
              · have haceq : a = c := le_antisymm (not_lt.mp hca) (not_lt.mp hac)
                subst haceq
                simp only [lt_irrefl, if_false] at h2 ⊢
                exact ih h1 h2

theorem charListLt_asymm {x y : List Char} :
    charListLt x y = true → charListLt y x = false := by
  induction x generalizing y with
  | nil =>
    intro h
    cases y with
    | nil => simp [charListLt] at h
    | cons b bs => simp [charListLt]
  | cons a as ih =>
    intro h
    cases y with
    | nil => simp [charListLt] at h
    | cons b bs =>
      simp only [charListLt] at h ⊢
      by_cases hab : a < b
      · simp [lt_asymm hab, hab]
      · by_cases hba : b < a
        · simp [hab, hba] at h
        · have habeq : a = b := le_antisymm (not_lt.mp hba) (not_lt.mp hab)
          subst habeq
          simp only [lt_irrefl, if_false] at h ⊢
          exact ih h

theorem charListLt_trichotomy (x y : List Char) :
    charListLt x y = true ∨ x = y ∨ charListLt y x = true := by
  induction x generalizing y with
  | nil =>
    cases y with
    | nil => simp
    | cons b bs => simp [charListLt]
  | cons a as ih =>
    cases y with
    | nil => simp [charListLt]
    | cons b bs =>
      rcases lt_trichotomy a b with h | h | h
      · exact Or.inl (by simp [charListLt, h])
      · subst h
        rcases ih bs with h2 | h2 | h2
        · exact Or.inl (by simp [charListLt, lt_irrefl, h2])
        · exact Or.inr (Or.inl (by simp [h2]))
        · exact Or.inr (Or.inr (by simp [charListLt, lt_irrefl, h2]))
      · exact Or.inr (Or.inr (by simp [charListLt, h]))

theorem strLt_trans {x y z : String} :
    strLt x y = true → strLt y z = true → strLt x z = true :=
  charListLt_trans

theorem strLt_asymm {x y : String} : strLt x y = true → strLt y x = false :=
  charListLt_asymm

theorem strLt_irrefl (x : String) : strLt x x = false := charListLt_irrefl _

theorem strLt_trichotomy (x y : String) : strLt x y = true ∨ x = y ∨ strLt y x = true := by
  rcases charListLt_trichotomy x.data y.data with h | h | h
  · exact Or.inl h
  · refine Or.inr (Or.inl ?_)
    cases x
    cases y
    simp only at h
    rw [h]
  · exact Or.inr (Or.inr h)

theorem strLe_iff {x y : String} : strLe x y = true ↔ strLt x y = true ∨ x = y := by
  simp [strLe]

theorem strLe_trans {x y z : String} :
    strLe x y = true → strLe y z = true → strLe x z = true := by
  intro h1 h2
  rcases strLe_iff.mp h1 with h1 | rfl
  · rcases strLe_iff.mp h2 with h2 | rfl
    · exact strLe_iff.mpr (Or.inl (strLt_trans h1 h2))
    · exact strLe_iff.mpr (Or.inl h1)
  · exact h2

theorem strLe_total (x y : String) : (strLe x y || strLe y x) = true := by
  simp only [Bool.or_eq_true]
  rcases strLt_trichotomy x y with h | rfl | h
  · exact Or.inl (strLe_iff.mpr (Or.inl h))
  · exact Or.inl (strLe_iff.mpr (Or.inr rfl))
  · exact Or.inr (strLe_iff.mpr (Or.inl h))

theorem optStrLt_trans {x y z : Option String} :
    optStrLt x y = true → optStrLt y z = true → optStrLt x z = true := by
  cases x <;> cases y <;> cases z <;> simp [optStrLt] <;> exact strLt_trans

theorem optStrLe_trans {x y z : Option String} :
    optStrLe x y = true → optStrLe y z = true → optStrLe x z = true := by
  cases x <;> cases y <;> cases z <;> simp [optStrLe] <;> exact strLe_trans

theorem optStrLe_total (x y : Option String) : (optStrLe x y || optStrLe y x) = true := by
  match x, y with
  | none, _ => simp [optStrLe]
  | some a, none => simp [optStrLe]
  | some a, some b => simpa using strLe_total a b

theorem optStr_trichotomy (x y : Option String) :
    optStrLt x y = true ∨ x = y ∨ optStrLt y x = true := by
  match x, y with
  | none, none => simp
  | none, some b => simp [optStrLt]
  | some a, none => simp [optStrLt]
  | some a, some b => simpa [optStrLt] using strLt_trichotomy a b

theorem optStrLt_asymm {x y : Option String} :
    optStrLt x y = true → optStrLt y x = false := by
  cases x <;> cases y <;> simp [optStrLt] <;> intro h <;> simp [strLt_asymm h]

theorem optStrLt_irrefl (x : Option String) : optStrLt x x = false := by
  cases x <;> simp [optStrLt, strLt_irrefl]

theorem optStrLt_ne {x y : Option String} : optStrLt x y = true → x ≠ y := by
  cases x <;> cases y <;> simp [optStrLt]
  intro h h2
  subst h2
  exact absurd h (by simp [strLt_irrefl])

theorem pairLe_trans {p q r : Option String × Option String} :
    pairLe p q = true → pairLe q r = true → pairLe p r = true := by
  intro h1 h2
  simp only [pairLe, Bool.or_eq_true, Bool.and_eq_true, beq_iff_eq] at h1 h2 ⊢
  rcases h1 with h1 | ⟨he1, hl1⟩
  · rcases h2 with h2 | ⟨he2, _⟩
    · exact Or.inl (optStrLt_trans h1 h2)
    · exact Or.inl (he2 ▸ h1)
  · rcases h2 with h2 | ⟨he2, hl2⟩
    · exact Or.inl (he1.symm ▸ h2)
    · exact Or.inr ⟨he1.trans he2, optStrLe_trans hl1 hl2⟩

theorem pairLe_total (p q : Option String × Option String) :
    (pairLe p q || pairLe q p) = true := by
  simp only [pairLe, Bool.or_eq_true, Bool.and_eq_true, beq_iff_eq]
  rcases optStr_trichotomy p.1 q.1 with h | h | h
  · exact Or.inl (Or.inl h)
  · have := optStrLe_total p.2 q.2
    rcases (by simpa using this : optStrLe p.2 q.2 = true ∨ optStrLe q.2 p.2 = true) with hl | hl
    · exact Or.inl (Or.inr ⟨h, hl⟩)
    · exact Or.inr (Or.inr ⟨h.symm, hl⟩)
  · exact Or.inr (Or.inl h)

theorem keyLe_trans (a b c : Namespace) :
    keyLe a b = true → keyLe b c = true → keyLe a c = true :=
  pairLe_trans

theorem keyLe_total (a b : Namespace) : (keyLe a b || keyLe b a) = true :=
  pairLe_total _ _

/-- Added items land in a list sorted by the total order. -/
theorem addEvolver_sorted (value : Namespace) (items : List Namespace) :
    (addEvolver value items).Pairwise keyLeP :=
  List.sorted_mergeSort keyLe_trans keyLe_total (items ++ [value])

/-- Adding never loses or duplicates items: the result has one more item. -/
theorem addEvolver_length (value : Namespace) (items : List Namespace) :
    (addEvolver value items).length = items.length + 1 := by
  simp [addEvolver]

/-- Membership after adding. -/
theorem mem_addEvolver {x value : Namespace} {items : List Namespace} :
    x ∈ addEvolver value items ↔ x ∈ items ∨ x = value := by
  simp [addEvolver, or_comm]

/-- Concrete namespace values used in counterexamples and witnesses. -/
def nsA : Namespace := Namespace.named "a"

def nsB : Namespace := Namespace.named "b"

def nsC0 : Namespace := Namespace.named "c"

/-- C2 counterexample: starting from a collection that already holds one
item, adding two members with distinct names yields 3 items, not 2 — the
claim's "exactly 2 items" only holds when `C` starts empty. -/
theorem c2_counterexample :
    nsA.metadata.name ≠ nsB.metadata.name ∧
    (((NamespaceList.mk [nsC0]).add nsA).add nsB).items.length = 3 := by
  constructor
  · decide
  · simp [NamespaceList.add, addEvolver]

/-- C2 (amended): for every collection `C` and members `a`, `b` with
distinct names, `C.add(a).add(b)` contains exactly `C.items.length + 2`
items (exactly 2 when `C` starts empty), and after every add the member
sequence is sorted by the total order (namespace ascending with absent
namespace least, then name ascending). -/
theorem c2_add_sorted (C : NamespaceList) (a b : Namespace)
    (_hab : a.metadata.name ≠ b.metadata.name) :
    ((C.add a).add b).items.length = C.items.length + 2 ∧
    (C.add a).items.Pairwise keyLeP ∧
    ((C.add a).add b).items.Pairwise keyLeP := by
  refine ⟨?_, addEvolver_sorted _ _, addEvolver_sorted _ _⟩
  simp [NamespaceList.add, addEvolver]

theorem c2_add_sorted_witness :
    (((NamespaceList.mk [nsC0]).add nsA).add nsB).items.length =
      (NamespaceList.mk [nsC0]).items.length + 2 ∧
    ((NamespaceList.mk [nsC0]).add nsA).items.Pairwise keyLeP ∧
    (((NamespaceList.mk [nsC0]).add nsA).add nsB).items.Pairwise keyLeP :=
  c2_add_sorted (NamespaceList.mk [nsC0]) nsA nsB (by decide)

/-- Removal fails exactly when the value is not a member, mirroring
`pvector.remove` raising `ValueError`. -/
theorem removeFirst_eq_none {items : List Namespace} {v : Namespace} :
    removeFirst items v = none ↔ v ∉ items := by
  induction items with
  | nil => simp [removeFirst]
  | cons x rest ih =>
    by_cases hx : x = v
    · simp [removeFirst, hx]
    · simp only [removeFirst, if_neg hx, Option.map_eq_none', ih, List.mem_cons]
      constructor
      · intro h hmem
        rcases hmem with h1 | h1
        · exact hx h1.symm
        · exact h h1
      · intro h hmem
        exact h (Or.inr hmem)

/-- Successful removal splits the list around the first occurrence of the
removed value. -/
theorem removeFirst_spec {items : List Namespace} {v : Namespace} (h : v ∈ items) :
    ∃ l1 l2, items = l1 ++ v :: l2 ∧ removeFirst items v = some (l1 ++ l2) ∧ v ∉ l1 := by
  induction items with
  | nil => simp at h
  | cons x rest ih =>
    by_cases hx : x = v
    · exact ⟨[], rest, by simp [hx], by simp [removeFirst, hx], by simp⟩
    · have hv : v ∈ rest := by
        rcases List.mem_cons.mp h with h1 | h1
        · exact absurd h1.symm hx
        · exact h1
      obtain ⟨l1, l2, heq, hrem, hnot⟩ := ih hv
      refine ⟨x :: l1, l2, by simp [heq], by simp [removeFirst, hx, hrem], ?_⟩
      intro hmem
      rcases List.mem_cons.mp hmem with h1 | h1
      · exact hx h1.symm
      · exact hnot h1

/-- When exactly one list member satisfies the search predicate, the
first-match search returns it. -/
theorem find?_eq_of_unique {l : List Namespace} {p : Namespace → Bool} {a : Namespace}
    (ha : a ∈ l) (hpa : p a = true) (huniq : ∀ x ∈ l, p x = true → x = a) :
    l.find? p = some a := by
  cases hf : l.find? p with
  | none => exact absurd hpa (by simpa using List.find?_eq_none.mp hf a ha)
  | some y =>
    have h1 := List.find?_some hf
    have h2 := List.mem_of_find?_eq_some hf
    rw [huniq y h2 h1]

/-- Namespace values sharing the name "n" in two different namespaces, and a
replacement value distinct from both. -/
def nsDupA : Namespace := ⟨⟨some "n", some "a", none, none⟩, none⟩

def nsDupB : Namespace := ⟨⟨some "n", some "b", none, none⟩, none⟩

def nsDupB2 : Namespace := ⟨⟨some "n", some "b", some "u2", none⟩, none⟩

/-- C3 counterexample: in a collection holding two members that share the
name "n" in different namespaces, replacing the member whose namespace
sorts later with a new same-named value leaves `item_by_name "n"` returning
the untouched other member, not `new` — the claim fails for such
collections. -/
theorem c3_counterexample :
    nsDupB ∈ (NamespaceList.mk [nsDupA, nsDupB]).items ∧
    nsDupB.metadata.name = some "n" ∧
    nsDupB2.metadata.name = some "n" ∧
    (NamespaceList.mk [nsDupA, nsDupB]).replace nsDupB nsDupB2 =
      .ok (NamespaceList.mk [nsDupA, nsDupB2]) ∧
    (NamespaceList.mk [nsDupA, nsDupB2]).item_by_name "n" = .ok nsDupA ∧
    nsDupA ≠ nsDupB2 := by
  have hsort : List.Pairwise (fun a b => keyLe a b = true) [nsDupA, nsDupB2] := by
    decide
  have hms := List.mergeSort_of_sorted hsort
  have hrem : removeFirst [nsDupA, nsDupB] nsDupB = some [nsDupA] := by rfl
  refine ⟨by decide, by decide, by decide, ?_, by rfl, by decide⟩
  simp only [NamespaceList.replace]
  rw [hrem]
  show Except.ok (NamespaceList.mk (addEvolver nsDupB2 [nsDupA])) =
    Except.ok (NamespaceList.mk [nsDupA, nsDupB2])
  unfold addEvolver
  rw [show [nsDupA] ++ [nsDupB2] = [nsDupA, nsDupB2] from rfl, hms]

/-- C3 (amended): if `old` is a current member of `C`, `new` carries the
same name `n`, and `old` is the only member of `C` whose name is `n`, then
`C.replace(old, new)` yields a collection where `item_by_name(n) == new`
and the item count is unchanged.  (Without the uniqueness condition the
property fails, as a same-named member in another namespace can shadow
`new`.) -/
theorem c3_replace_unique (C : NamespaceList) (old new : Namespace) (n : String)
    (hmem : old ∈ C.items)
    (hold : old.metadata.name = some n)
    (hnew : new.metadata.name = some n)
    (huniq : C.items.countP (fun x => x.metadata.name == some n) = 1) :
    ∃ C2, C.replace old new = .ok C2 ∧
      C2.item_by_name n = .ok new ∧
      C2.items.length = C.items.length := by
  obtain ⟨l1, l2, heq, hrem, -⟩ := removeFirst_spec hmem
  have hpold : (fun x : Namespace => x.metadata.name == some n) old = true := by
    simp [hold]
  have hcount : (l1 ++ l2).countP (fun x => x.metadata.name == some n) = 0 := by
    rw [heq] at huniq
    simp only [List.countP_append, List.countP_cons, hpold, if_true] at huniq ⊢
    omega
  have hnone : ∀ x ∈ l1 ++ l2, (x.metadata.name == some n) = false := by
    intro x hx
    by_contra hpx
    have hpos : 0 < (l1 ++ l2).countP (fun x => x.metadata.name == some n) :=
      List.countP_pos.mpr ⟨x, hx, by simpa using hpx⟩
    omega
  refine ⟨⟨addEvolver new (l1 ++ l2)⟩, ?_, ?_, ?_⟩
  · simp [NamespaceList.replace, hrem]
  · have hmemnew : new ∈ addEvolver new (l1 ++ l2) := mem_addEvolver.mpr (Or.inr rfl)
    have hfind : (addEvolver new (l1 ++ l2)).find?
        (fun obj => obj.metadata.name == some n) = some new := by
      apply find?_eq_of_unique hmemnew (by simp [hnew])
      intro x hx hpx
      rcases mem_addEvolver.mp hx with hx1 | hx1
      · exact absurd hpx (by simp [hnone x hx1])
      · exact hx1
    simp [NamespaceList.item_by_name, hfind]
  · rw [heq]
    simp [addEvolver]

theorem c3_replace_unique_witness :
    ∃ C2, (NamespaceList.mk [nsDupA]).replace nsDupA nsDupB2 = .ok C2 ∧
      C2.item_by_name "n" = .ok nsDupB2 ∧
      C2.items.length = (NamespaceList.mk [nsDupA]).items.length :=
  c3_replace_unique (NamespaceList.mk [nsDupA]) nsDupA nsDupB2 "n"
    (by decide) (by decide) (by decide) (by decide)

/-- C4: replacing a value that is not a current member fails with
`NotFoundError`, propagated from the underlying removal, and no collection
is produced (the result is the error, not a collection). -/
theorem c4_replace_missing (C : NamespaceList) (old new : Namespace)
    (h : old ∉ C.items) :
    C.replace old new = .error .notFoundError := by
  simp [NamespaceList.replace, removeFirst_eq_none.mpr h]

theorem c4_replace_missing_witness :
    (NamespaceList.mk [nsDupA]).replace nsDupB nsDupB2 = .error .notFoundError :=
  c4_replace_missing (NamespaceList.mk [nsDupA]) nsDupB nsDupB2 (by decide)

/-- C5: when no member of the collection carries the metadata name `n`,
`item_by_name(n)` fails with `NotFoundError`; when some member does, it
returns a member whose metadata name is `n`. -/
theorem c5_item_by_name (C : NamespaceList) (n : String) :
    ((∀ x ∈ C.items, x.metadata.name ≠ some n) →
      C.item_by_name n = .error .notFoundError) ∧
    (∀ x ∈ C.items, x.metadata.name = some n →
      ∃ y, C.item_by_name n = .ok y ∧ y.metadata.name = some n ∧ y ∈ C.items) := by
  constructor
  · intro hnone
    have hfind : C.items.find? (fun obj => obj.metadata.name == some n) = none := by
      rw [List.find?_eq_none]
      intro x hx
      simp [hnone x hx]
    simp [NamespaceList.item_by_name, hfind]
  · intro x hx hxn
    cases hf : C.items.find? (fun obj => obj.metadata.name == some n) with
    | none =>
      have := List.find?_eq_none.mp hf x hx
      exact absurd (by simpa using this) (by simp [hxn])
    | some y =>
      refine ⟨y, by simp [NamespaceList.item_by_name, hf], ?_, List.mem_of_find?_eq_some hf⟩
      have := List.find?_some hf
      simpa using this

theorem c5_item_by_name_witness :
    ((NamespaceList.mk [nsDupA]).item_by_name "m" = .error .notFoundError) ∧
    (∃ y, (NamespaceList.mk [nsDupA]).item_by_name "n" = .ok y ∧
      y.metadata.name = some "n" ∧ y ∈ (NamespaceList.mk [nsDupA]).items) :=
  ⟨(c5_item_by_name (NamespaceList.mk [nsDupA]) "m").1 (by decide),
   (c5_item_by_name (NamespaceList.mk [nsDupA]) "n").2 nsDupA (by decide) (by decide)⟩

/-- In a list sorted by the collection order, the first member carrying a
given name is the one whose namespace sorts least among the carriers. -/
theorem find?_sorted_least {l : List Namespace} {a b : Namespace} {n : String}
    (hsorted : l.Pairwise keyLeP) (ha : a ∈ l) (hb : b ∈ l)
    (han : a.metadata.name = some n) (hbn : b.metadata.name = some n)
    (hns : optStrLt a.metadata.nspace b.metadata.nspace = true)
    (hall : ∀ x ∈ l, x.metadata.name = some n → x = a ∨ x = b) :
    l.find? (fun obj => obj.metadata.name == some n) = some a := by
  have hab : a ≠ b := by
    intro h
    rw [h] at hns
    exact absurd hns (by simp [optStrLt_irrefl])
  induction l with
  | nil => simp at ha
  | cons x rest ih =>
    have hx := List.pairwise_cons.mp hsorted
    by_cases hpx : (x.metadata.name == some n) = true
    · have hxn : x.metadata.name = some n := by simpa using hpx
      rcases hall x (List.mem_cons_self x rest) hxn with hxa | hxb
      · subst hxa
        exact List.find?_cons_of_pos rest hpx
      · subst hxb
        rcases List.mem_cons.mp ha with h1 | h1
        · exact absurd h1 hab
        · have hba : keyLe x a = true := hx.1 a h1
          have : optStrLt x.metadata.nspace a.metadata.nspace = true ∨
              x.metadata.nspace = a.metadata.nspace := by
            simp only [keyLe, pairLe, object_sort_key, Bool.or_eq_true,
              Bool.and_eq_true, beq_iff_eq] at hba
            rcases hba with h2 | ⟨h2, -⟩
            · exact Or.inl h2
            · exact Or.inr h2
          rcases this with h2 | h2
          · exact absurd h2 (by simp [optStrLt_asymm hns])
          · rw [h2] at hns
            exact absurd hns (by simp [optStrLt_irrefl])
    · have hxa : x ≠ a := by
        intro h
        exact hpx (by simp [h, han])
      have ha2 : a ∈ rest := by
        rcases List.mem_cons.mp ha with h1 | h1
        · exact absurd h1.symm hxa
        · exact h1
      have hxb : x ≠ b := by
        intro h
        exact hpx (by simp [h, hbn])
      have hb2 : b ∈ rest := by
        rcases List.mem_cons.mp hb with h1 | h1
        · exact absurd h1.symm hxb
        · exact h1
      rw [List.find?_cons_of_neg rest hpx]
      exact ih hx.2 ha2 hb2 (fun y hy hyn => hall y (List.mem_cons_of_mem x hy) hyn)

/-- C9: `item_by_name` matches by name only and returns the first match in
the stored (sorted) order: in a sorted collection whose only carriers of
the name `n` are `a` and `b`, with `a`'s namespace sorting strictly least,
the lookup returns `a`, and `b` is unreachable by name. -/
theorem c9_item_by_name_shadowing (C : NamespaceList) (a b : Namespace) (n : String)
    (hsorted : C.items.Pairwise keyLeP) (ha : a ∈ C.items) (hb : b ∈ C.items)
    (han : a.metadata.name = some n) (hbn : b.metadata.name = some n)
    (hns : optStrLt a.metadata.nspace b.metadata.nspace = true)
    (hall : ∀ x ∈ C.items, x.metadata.name = some n → x = a ∨ x = b) :
    C.item_by_name n = .ok a ∧ C.item_by_name n ≠ .ok b := by
  have hab : a ≠ b := by
    intro h
    rw [h] at hns
    exact absurd hns (by simp [optStrLt_irrefl])
  have hfind := find?_sorted_least hsorted ha hb han hbn hns hall
  constructor
  · simp [NamespaceList.item_by_name, hfind]
  · simp only [NamespaceList.item_by_name, hfind]
    intro h
    exact hab (by simpa using h)

theorem c9_item_by_name_shadowing_witness :
    (NamespaceList.mk [nsDupA, nsDupB]).item_by_name "n" = .ok nsDupA ∧
    (NamespaceList.mk [nsDupA, nsDupB]).item_by_name "n" ≠ .ok nsDupB :=
  c9_item_by_name_shadowing (NamespaceList.mk [nsDupA, nsDupB]) nsDupA nsDupB "n"
    (by decide) (by decide) (by decide) (by decide) (by decide) (by decide)
    (by decide)

/-- Raw wire values: the JSON-like untyped representation carried by a raw
record's fields. -/
inductive RawValue where
  | str (s : String)
  | obj (fields : List (String × RawValue))

/-- A raw record: a mapping with string keys, embedded as an association
list looked up by first match. -/
abbrev Raw := List (String × RawValue)

/-- Mapping lookup by key (`dict.get` / `pmap.get`). -/
def rawGet (r : Raw) (key : String) : Option RawValue :=
  (r.find? (fun kv => kv.fst == key)).map (fun kv => kv.snd)

/-- Key removal (`pmap.discard`): drops the key when present. -/
def rawDiscard (r : Raw) (key : String) : Raw :=
  r.filter (fun kv => kv.fst != key)

/-- One-key `dict.update`: replace the stored value when the key is
present, append the pair otherwise. -/
def rawSet (r : Raw) (key : String) (v : RawValue) : Raw :=
  if (r.find? (fun kv => kv.fst == key)).isSome
  then r.map (fun kv => if kv.fst == key then (key, v) else kv)
  else r ++ [(key, v)]

/-- Read an optional string-valued field from a raw mapping. -/
def getStrField (r : Raw) (key : String) : Except KError (Option String) :=
  match rawGet r key with
  | none => .ok none
  | some (.str s) => .ok (some s)
  | some _ => .error .invalidRawError

/-- Modelled from the spec: serialization of the metadata sub-structure by
the schema-synthesized record types of `txkube/_swagger.py`, which is not
among the provided sources.  Present optional fields are emitted, absent
ones are omitted. -/
def serializeMeta (m : ObjectMeta) : RawValue :=
  .obj ((match m.name with | some v => [("name", RawValue.str v)] | none => []) ++
    (match m.nspace with | some v => [("namespace", RawValue.str v)] | none => []) ++
    (match m.uid with | some v => [("uid", RawValue.str v)] | none => []) ++
    (match m.resourceVersion with
      | some v => [("resourceVersion", RawValue.str v)] | none => []))

/-- Modelled from the spec: construction of a metadata value from its raw
form, reading each known field by key. -/
def createMeta (v : RawValue) : Except KError ObjectMeta :=
  match v with
  | .obj fields => do
    let name ← getStrField fields "name"
    let nspace ← getStrField fields "namespace"
    let uid ← getStrField fields "uid"
    let rv ← getStrField fields "resourceVersion"
    .ok ⟨name, nspace, uid, rv⟩
  | _ => .error .invalidRawError

/-- Modelled from the spec: serialization of a `NamespaceStatus`. -/
def NamespaceStatus.serialize (st : NamespaceStatus) : RawValue :=
  .obj [("phase", RawValue.str st.phase)]

/-- Modelled from the spec: the schema-driven `serialize()` of a
`Namespace` value (`_swagger.py`, not among the provided sources): its
fields without the kind/version discriminators. -/
def Namespace.serialize (v : Namespace) : Raw :=
  [("metadata", serializeMeta v.metadata)] ++
    (match v.status with | some st => [("status", st.serialize)] | none => [])

/-- Modelled from the spec: the schema-driven `Namespace.create` of the
synthesized types (`_swagger.py`, not among the provided sources). -/
def Namespace.create (r : Raw) : Except KError Namespace := do
  let m ← match rawGet r "metadata" with
    | some mv => createMeta mv
    | none => .error .invalidRawError
  let st ← match rawGet r "status" with
    | none => Except.ok none
    | some (.obj sf) =>
      match rawGet sf "phase" with
      | some (.str p) => Except.ok (some (NamespaceStatus.mk p))
      | _ => Except.error KError.invalidRawError
    | some _ => Except.error KError.invalidRawError
  .ok ⟨m, st⟩

/-- Serialization of a string-to-string mapping (a `ConfigMap` data
field). -/
def serializeStrMap (d : List (String × String)) : RawValue :=
  .obj (d.map (fun kv => (kv.fst, RawValue.str kv.snd)))

/-- Parse a raw mapping whose values must all be strings. -/
def parseStrMap : List (String × RawValue) → Except KError (List (String × String))
  | [] => .ok []
  | (k, .str s) :: rest => (parseStrMap rest).map (fun l => (k, s) :: l)
  | _ => .error .invalidRawError

/-- Modelled from the spec: the schema-driven `serialize()` of a
`ConfigMap` value. -/
def ConfigMap.serialize (v : ConfigMap) : Raw :=
  [("metadata", serializeMeta v.metadata)] ++
    (match v.data with | some d => [("data", serializeStrMap d)] | none => [])

/-- Modelled from the spec: the schema-driven `ConfigMap.create`. -/
def ConfigMap.create (r : Raw) : Except KError ConfigMap := do
  let m ← match rawGet r "metadata" with
    | some mv => createMeta mv
    | none => .error .invalidRawError
  let d ← match rawGet r "data" with
    | none => Except.ok none
    | some (.obj df) => (parseStrMap df).map some
    | some _ => Except.error KError.invalidRawError
  .ok ⟨m, d⟩

/-- The registered `IObject` resource kinds of `_model.py` that the claims
quantify over: `Namespace` and `ConfigMap`. -/
inductive IObjectV where
  | namespaceObj (v : Namespace)
  | configMapObj (v : ConfigMap)
deriving DecidableEq, Repr

/-- The class-level `kind` discriminator. -/
def IObjectV.kind : IObjectV → String
  | .namespaceObj _ => "Namespace"
  | .configMapObj _ => "ConfigMap"

/-- The class-level `apiVersion` discriminator: both embedded kinds are
registered under `v1`. -/
def IObjectV.apiVersion : IObjectV → String
  | _ => "v1"

/-- Dispatch of `obj.serialize()`. -/
def IObjectV.serialize : IObjectV → Raw
  | .namespaceObj v => v.serialize
  | .configMapObj v => v.serialize

/-- `iobject_to_raw` (`_model.py` lines 182-188): `obj.serialize()` updated
with the `kind` and `apiVersion` discriminators. -/
def iobject_to_raw (obj : IObjectV) : Raw :=
  rawSet (rawSet obj.serialize "kind" (.str obj.kind)) "apiVersion" (.str obj.apiVersion)

/-- `obj.get(key, hint)`: the stored value when the key is present, the
hint otherwise. -/
def getWithHint (r : Raw) (key : String) (hint : Option String) : Option RawValue :=
  match rawGet r key with
  | some v => some v
  | none => hint.map RawValue.str

/-- `iobject_from_raw` (`_model.py` lines 195-209): read the discriminators
(falling back to the hints when the keys are absent), resolve the version
namespace in `_versions` and the kind registered on it (the modelled
catalog: `v1` holding `Namespace` and `ConfigMap`), strip the two
discriminator keys and construct the typed value from the remainder.  An
unknown version (`KeyError`) or kind (attribute lookup failure) is the
spec's `UnknownKindError`. -/
def iobject_from_raw (r : Raw) (kind_hint version_hint : Option String) :
    Except KError IObjectV :=
  match getWithHint r "apiVersion" version_hint with
  | some (.str "v1") =>
    match getWithHint r "kind" kind_hint with
    | some (.str "Namespace") =>
      (Namespace.create (rawDiscard (rawDiscard r "kind") "apiVersion")).map .namespaceObj
    | some (.str "ConfigMap") =>
      (ConfigMap.create (rawDiscard (rawDiscard r "kind") "apiVersion")).map .configMapObj
    | _ => .error .unknownKindError
  | _ => .error .unknownKindError

/-- Bind on a successful `Except` computation reduces to its
continuation. -/
theorem kbind_ok {α β : Type} (a : α) (f : α → Except KError β) :
    (Except.ok a >>= f) = f a := rfl

/-- Parsing a serialized string map recovers the original entries. -/
theorem parseStrMap_map (d : List (String × String)) :
    parseStrMap (d.map (fun kv => (kv.fst, RawValue.str kv.snd))) = .ok d := by
  induction d with
  | nil => rfl
  | cons kv rest ih =>
    obtain ⟨k, s⟩ := kv
    simp [parseStrMap, ih, Except.map]

/-- C1: decoding the serialized form of a constructed resource value of a
registered kind yields the original value:
`iobject_from_raw(iobject_to_raw(v)) == v`. -/
theorem c1_roundtrip (v : IObjectV) :
    iobject_from_raw (iobject_to_raw v) none none = .ok v := by
  cases v with
  | namespaceObj ns =>
    obtain ⟨⟨n, nsp, uid, rv⟩, st⟩ := ns
    cases n <;> cases nsp <;> cases uid <;> cases rv <;> cases st <;> rfl
  | configMapObj cm =>
    obtain ⟨⟨n, nsp, uid, rv⟩, d⟩ := cm
    cases d with
    | none => cases n <;> cases nsp <;> cases uid <;> cases rv <;> rfl
    | some dd =>
      cases n <;> cases nsp <;> cases uid <;> cases rv <;>
        simp [iobject_to_raw, iobject_from_raw, IObjectV.serialize, IObjectV.kind,
          IObjectV.apiVersion, ConfigMap.serialize, serializeMeta, serializeStrMap,
          rawSet, rawGet, rawDiscard, getWithHint, ConfigMap.create, getStrField,
          createMeta, parseStrMap_map, Except.map, kbind_ok]

/-- The modelled registration catalog of `_versions` and the `behavior`
decorator: version "v1" holding the kinds "Namespace" and "ConfigMap". -/
def registeredPair (version kind : Option RawValue) : Bool :=
  match version, kind with
  | some (.str "v1"), some (.str "Namespace") => true
  | some (.str "v1"), some (.str "ConfigMap") => true
  | _, _ => false

/-- C6: a raw record whose (apiVersion, kind) pair — after the hint
fallback — is not registered in the catalog makes `iobject_from_raw` fail
with `UnknownKindError`, not produce a value or fail some other way. -/
theorem c6_unknown_kind (r : Raw) (kind_hint version_hint : Option String)
    (h : registeredPair (getWithHint r "apiVersion" version_hint)
        (getWithHint r "kind" kind_hint) = false) :
    iobject_from_raw r kind_hint version_hint = .error .unknownKindError := by
  unfold iobject_from_raw
  split
  · split
    · rename_i x1 hv x2 hk
      rw [hv, hk] at h
      exact absurd h (by decide)
    · rename_i x1 hv x2 hk
      rw [hv, hk] at h
      exact absurd h (by decide)
    · rfl
  · rfl

theorem c6_unknown_kind_witness :
    iobject_from_raw [("kind", RawValue.str "Pod"), ("apiVersion", RawValue.str "v1")]
      none none = .error .unknownKindError :=
  c6_unknown_kind [("kind", RawValue.str "Pod"), ("apiVersion", RawValue.str "v1")]
    none none (by rfl)

/-- C7: `collection_location` on a v1 kind "Pod" with namespace "ns" yields
("api","v1","namespaces","ns","pods"); on the bare v1 type with no
namespace ("api","v1","pods"); on any kind under apiVersion "v1beta1"
(group "extensions") with no namespace
("apis","extensions","v1beta1",lower-cased kind + "s"). -/
theorem c7_collection_location :
    collection_location "v1" "Pod" (some "ns") = ["api", "v1", "namespaces", "ns", "pods"] ∧
    collection_location "v1" "Pod" none = ["api", "v1", "pods"] ∧
    ∀ kind : String, collection_location "v1beta1" kind none =
      ["apis", "extensions", "v1beta1", lowerStr kind ++ "s"] := by
  refine ⟨by decide, by decide, fun kind => ?_⟩
  simp [collection_location, groupForVersion]

/-- C8: `fill_defaults` on a named namespace stores the freshly drawn
version-4 UUID string as `metadata.uid` (so the identifier is non-empty and
uuid4-shaped) and the `Active` status; two calls whose fresh draws differ
produce two different identifiers. -/
theorem c8_fill_defaults (ns1 ns2 : Namespace) (u1 u2 : String)
    (h1 : IsUuid4String u1) (_h2 : IsUuid4String u2) (hne : u1 ≠ u2) :
    (∃ u, (ns1.fill_defaults u1).metadata.uid = some u ∧ u ≠ "" ∧ IsUuid4String u) ∧
    (ns1.fill_defaults u1).status = some NamespaceStatus.active ∧
    (ns1.fill_defaults u1).metadata.uid ≠ (ns2.fill_defaults u2).metadata.uid := by
  refine ⟨⟨u1, rfl, ?_, h1⟩, rfl, ?_⟩
  · intro hempty
    have : u1.length = 36 := h1.1
    rw [hempty] at this
    simp at this
  · simp [Namespace.fill_defaults, hne]

theorem c8_fill_defaults_witness :
    (∃ u, ((Namespace.named "a").fill_defaults
        "00000000-0000-4000-8000-000000000000").metadata.uid = some u ∧ u ≠ "" ∧
        IsUuid4String u) ∧
    ((Namespace.named "a").fill_defaults
        "00000000-0000-4000-8000-000000000000").status = some NamespaceStatus.active ∧
    ((Namespace.named "a").fill_defaults
        "00000000-0000-4000-8000-000000000000").metadata.uid ≠
      ((Namespace.named "b").fill_defaults
        "00000000-0000-4000-8000-000000000001").metadata.uid :=
  c8_fill_defaults (Namespace.named "a") (Namespace.named "b")
    "00000000-0000-4000-8000-000000000000" "00000000-0000-4000-8000-000000000001"
    (by decide) (by decide) (by decide)

/-- C10: `fill_defaults` unconditionally overwrites `metadata.uid` with the
fresh identifier and `status` with the Active status — whatever the input
carried — and leaves every other field (name, namespace, resourceVersion)
unchanged. -/
theorem c10_fill_defaults_frame (ns : Namespace) (u : String) :
    (ns.fill_defaults u).metadata.uid = some u ∧
    (ns.fill_defaults u).status = some NamespaceStatus.active ∧
    (ns.fill_defaults u).metadata.name = ns.metadata.name ∧
    (ns.fill_defaults u).metadata.nspace = ns.metadata.nspace ∧
    (ns.fill_defaults u).metadata.resourceVersion = ns.metadata.resourceVersion := by
  refine ⟨rfl, rfl, rfl, rfl, rfl⟩

end Txkube
